import Mathlib

/-!
Shallow embedding of the upaho MQTT client (src/core/RP2350/src/upaho:
properties.py, packets.py, client.py) and proofs about it.

Conventions of the embedding:
* byte strings are `List Nat` whose entries are naturals below 256;
* for a byte `b`, Python `b & 0x7F` is modelled as `b % 128` and the test
  `(b & 0x80) != 0` as `b / 128 % 2 = 1` (exact on byte values);
* MicroPython `struct.pack` performs no range check and truncates the packed
  value, modelled with explicit `% 2^w`;
* Python functions that raise are modelled in `Except String`;
* the source's unbounded `while` loops advance an offset by at least one byte
  per iteration, so they are rendered with an explicit fuel argument that is
  large enough that the fuel-exhaustion branch is unreachable on the calls
  the embedding makes (noted at each definition).
-/

/-- One iteration per byte of the `while True` loop of properties.py
`_encode_variable_length`.  The value shrinks by a factor 128 per emitted
byte, so `value` itself always bounds the number of iterations; the fuel-0
fallback coincides with the final-byte case and is exercised only at 0. -/
def encodeVarAux : Nat → Nat → List Nat
  | 0, value => [value % 128]
  | fuel + 1, value =>
    if value / 128 > 0 then (value % 128 + 128) :: encodeVarAux fuel (value / 128)
    else [value % 128]

/-- properties.py `_encode_variable_length`: MQTT variable length integer,
7 bits per byte, continuation bit 0x80 set while more bytes remain
(`byte | 0x80` is `byte + 128` because `byte = value % 128 < 128`). -/
def _encode_variable_length (value : Nat) : List Nat :=
  encodeVarAux value value

/-- The encoder does not depend on the fuel once the fuel bounds the value. -/
theorem encodeVarAux_congr :
    ∀ (fuel fuel2 value : Nat), value ≤ fuel → value ≤ fuel2 →
      encodeVarAux fuel value = encodeVarAux fuel2 value := by
  intro fuel
  induction fuel with
  | zero =>
    intro fuel2 value h1 _
    have hz : value = 0 := by omega
    subst hz
    cases fuel2 with
    | zero => rfl
    | succ n => simp [encodeVarAux]
  | succ fuel ih =>
    intro fuel2 value h1 h2
    cases fuel2 with
    | zero =>
      have hz : value = 0 := by omega
      subst hz
      simp [encodeVarAux]
    | succ n =>
      simp only [encodeVarAux]
      by_cases h : value / 128 > 0
      · have hd : value / 128 < value := Nat.div_lt_self (by omega) (by omega)
        rw [if_pos h, if_pos h, ih n (value / 128) (by omega) (by omega)]
      · rw [if_neg h, if_neg h]

/-- One iteration per byte of the `while True` loop of properties.py
`_decode_variable_length`.  The source loop reads at most 4 bytes before the
multiplier guard (`multiplier > 128*128*128`) raises, so with fuel 4 and
initial multiplier 1 the fuel-exhaustion branch is unreachable. -/
def decodeVarLoop : Nat → List Nat → Nat → Nat → Nat → Except String (Nat × Nat)
  | 0, _, _, _, _ => .error "Variable length too large"
  | fuel + 1, data, offset, multiplier, value =>
    if offset < data.length then
      let byte := data.getD offset 0
      let value := value + byte % 128 * multiplier
      if byte / 128 % 2 = 1 then
        if multiplier * 128 > 128 * 128 * 128 then .error "Variable length too large"
        else decodeVarLoop fuel data (offset + 1) (multiplier * 128) value
      else
        .ok (value, offset + 1)
    else
      .error "Malformed variable length"

/-- properties.py `_decode_variable_length`: returns `(value, new offset)` or
raises `ValueError` on a malformed / overlong sequence. -/
def _decode_variable_length (data : List Nat) (offset : Nat) : Except String (Nat × Nat) :=
  decodeVarLoop 4 data offset 1 0

/-! ### Helper lemmas on the varint codec -/

theorem encode_variable_length_small {value : Nat} (h : value / 128 = 0) :
    _encode_variable_length value = [value % 128] := by
  unfold _encode_variable_length
  cases value with
  | zero => rfl
  | succ n => simp [encodeVarAux, h]

theorem encode_variable_length_big {value : Nat} (h : value / 128 > 0) :
    _encode_variable_length value
      = (value % 128 + 128) :: _encode_variable_length (value / 128) := by
  have hpos : 0 < value := by
    by_contra hc
    have : value = 0 := by omega
    subst this
    simp at h
  obtain ⟨n, rfl⟩ : ∃ n, value = n + 1 := ⟨value - 1, by omega⟩
  unfold _encode_variable_length
  conv_lhs => simp only [encodeVarAux]
  rw [if_pos h]
  have hd : (n + 1) / 128 < n + 1 := Nat.div_lt_self (by omega) (by omega)
  rw [encodeVarAux_congr n ((n + 1) / 128) ((n + 1) / 128) (by omega) le_rfl]

theorem encode_variable_length_length_pos (value : Nat) :
    0 < (_encode_variable_length value).length := by
  by_cases h : value / 128 > 0
  · rw [encode_variable_length_big h]; simp
  · rw [encode_variable_length_small (by omega)]; simp

theorem encode_variable_length_length_le :
    ∀ k value : Nat, value < 128 ^ (k + 1) →
      (_encode_variable_length value).length ≤ k + 1 := by
  intro k
  induction k with
  | zero =>
    intro value hv
    rw [encode_variable_length_small (Nat.div_eq_of_lt (by simpa using hv))]
    simp
  | succ k ih =>
    intro value hv
    by_cases h : value / 128 > 0
    · rw [encode_variable_length_big h]
      have hlt : value / 128 < 128 ^ (k + 1) := by
        rw [Nat.div_lt_iff_lt_mul (by norm_num)]
        calc value < 128 ^ (k + 2) := hv
        _ = 128 ^ (k + 1) * 128 := by rw [pow_succ]
      have := ih (value / 128) hlt
      simpa using Nat.succ_le_succ this
    · rw [encode_variable_length_small (by omega)]
      simp

/-- Reading at an offset shifted past a leading byte is reading the tail. -/
theorem decodeVarLoop_cons_shift :
    ∀ (fuel : Nat) (b : Nat) (data : List Nat) (offset multiplier value : Nat),
      decodeVarLoop fuel (b :: data) (offset + 1) multiplier value
        = (decodeVarLoop fuel data offset multiplier value).map
            (fun p => (p.1, p.2 + 1)) := by
  intro fuel
  induction fuel with
  | zero => intro b data offset multiplier value; rfl
  | succ fuel ih =>
    intro b data offset multiplier value
    simp only [decodeVarLoop, List.length_cons, Nat.add_lt_add_iff_right,
      List.getD_cons_succ]
    by_cases hoff : offset < data.length
    · rw [if_pos hoff, if_pos hoff]
      by_cases hcont : data.getD offset 0 / 128 % 2 = 1
      · rw [if_pos hcont, if_pos hcont]
        by_cases hmul : multiplier * 128 > 128 * 128 * 128
        · rw [if_pos hmul, if_pos hmul]; rfl
        · rw [if_neg hmul, if_neg hmul]
          exact ih b data (offset + 1) (multiplier * 128) _
      · rw [if_neg hcont, if_neg hcont]; rfl
    · rw [if_neg hoff, if_neg hoff]; rfl

/-- Decoding is unaffected by a prefix, apart from the reported offset. -/
theorem decodeVarLoop_append (pre : List Nat) :
    ∀ (data : List Nat) (fuel offset multiplier value : Nat),
      decodeVarLoop fuel (pre ++ data) (pre.length + offset) multiplier value
        = (decodeVarLoop fuel data offset multiplier value).map
            (fun p => (p.1, p.2 + pre.length)) := by
  induction pre with
  | nil =>
    intro data fuel offset multiplier value
    simp only [List.nil_append, List.length_nil, Nat.zero_add]
    cases decodeVarLoop fuel data offset multiplier value <;> simp [Except.map]
  | cons b pre ih =>
    intro data fuel offset multiplier value
    have hlen : (b :: pre).length + offset = (pre.length + offset) + 1 := by
      simp; omega
    rw [List.cons_append, hlen, decodeVarLoop_cons_shift, ih]
    cases decodeVarLoop fuel data offset multiplier value <;>
      simp [Except.map] <;> omega

/-- Core round-trip lemma: the decode loop consumes exactly the encoding of
`v` and adds `v * multiplier` to the accumulator, provided the encoding fits
in the remaining fuel and the multiplier guard cannot fire. -/
theorem decodeVarLoop_encode :
    ∀ (v : Nat) (rest : List Nat) (fuel multiplier value : Nat),
      (_encode_variable_length v).length ≤ fuel →
      multiplier * 128 ^ ((_encode_variable_length v).length - 1)
        ≤ 128 * 128 * 128 →
      decodeVarLoop fuel (_encode_variable_length v ++ rest) 0 multiplier value
        = .ok (value + v * multiplier, (_encode_variable_length v).length) := by
  intro v
  induction v using Nat.strong_induction_on with
  | _ v ih =>
    intro rest fuel multiplier value hfuel hmul
    by_cases hbig : v / 128 > 0
    · rw [encode_variable_length_big hbig] at hfuel hmul ⊢
      obtain ⟨fuel', rfl⟩ : ∃ fuel', fuel = fuel' + 1 := by
        cases fuel with
        | zero => simp at hfuel
        | succ n => exact ⟨n, rfl⟩
      have hlenpos := encode_variable_length_length_pos (v / 128)
      simp only [List.length_cons] at hfuel hmul
      have hmul' : multiplier * 128 ≤ 128 * 128 * 128 := by
        have h1 : (128:Nat) ≤ 128 ^ ((_encode_variable_length (v / 128)).length + 1 - 1) := by
          have : 1 ≤ (_encode_variable_length (v / 128)).length := hlenpos
          calc (128:Nat) = 128 ^ 1 := by norm_num
          _ ≤ 128 ^ ((_encode_variable_length (v / 128)).length + 1 - 1) :=
            Nat.pow_le_pow_right (by norm_num) (by omega)
        calc multiplier * 128 ≤ multiplier * 128 ^ ((_encode_variable_length (v / 128)).length + 1 - 1) :=
              Nat.mul_le_mul_left _ h1
        _ ≤ 128 * 128 * 128 := hmul
      simp only [decodeVarLoop, List.cons_append, List.length_cons,
        List.getD_cons_zero]
      rw [if_pos (by omega)]
      have hbyte : (v % 128 + 128) / 128 % 2 = 1 := by omega
      rw [if_pos hbyte, if_neg (by omega)]
      rw [decodeVarLoop_cons_shift]
      have hmulrec : multiplier * 128 *
          128 ^ ((_encode_variable_length (v / 128)).length - 1) ≤ 128 * 128 * 128 := by
        have he : multiplier * 128 * 128 ^ ((_encode_variable_length (v / 128)).length - 1)
            = multiplier * 128 ^ ((_encode_variable_length (v / 128)).length - 1 + 1) := by
          rw [pow_succ]; ring
        rw [he]
        have he2 : (_encode_variable_length (v / 128)).length - 1 + 1
            = (_encode_variable_length (v / 128)).length + 1 - 1 := by omega
        rw [he2]; exact hmul
      rw [ih (v / 128) (Nat.div_lt_self (by omega) (by omega)) rest fuel'
        (multiplier * 128) (value + (v % 128 + 128) % 128 * multiplier)
        (by omega) hmulrec]
      simp only [Except.map]
      have hval : (v % 128 + 128) % 128 = v % 128 := by omega
      rw [hval]
      have hdm := Nat.div_add_mod v 128
      have hsum : value + v % 128 * multiplier + v / 128 * (multiplier * 128)
          = value + v * multiplier := by nlinarith
      rw [hsum]
    · rw [encode_variable_length_small (by omega)] at hfuel ⊢
      obtain ⟨fuel', rfl⟩ : ∃ fuel', fuel = fuel' + 1 := by
        cases fuel with
        | zero => simp at hfuel
        | succ n => exact ⟨n, rfl⟩
      have hv : v < 128 := by omega
      simp only [decodeVarLoop, List.cons_append, List.getD_cons_zero,
        List.length_cons, List.length_append]
      rw [if_pos (by omega), if_neg (by omega)]
      have hvmod : v % 128 % 128 = v := by omega
      simp [hvmod]

/-- Decoding past a prefix: the exported entry point on well-formed input. -/
theorem decode_variable_length_spec (v : Nat) (pre rest : List Nat)
    (h : v ≤ 268435455) :
    _decode_variable_length (pre ++ (_encode_variable_length v ++ rest)) pre.length
      = .ok (v, pre.length + (_encode_variable_length v).length) := by
  have hlen : (_encode_variable_length v).length ≤ 4 := by
    have h4 : (128 : Nat) ^ (3 + 1) = 268435456 := by norm_num
    exact encode_variable_length_length_le 3 v (by omega)
  have hlenpos := encode_variable_length_length_pos v
  have hmul : 1 * 128 ^ ((_encode_variable_length v).length - 1) ≤ 128 * 128 * 128 := by
    calc 1 * 128 ^ ((_encode_variable_length v).length - 1)
        = 128 ^ ((_encode_variable_length v).length - 1) := by ring
    _ ≤ 128 ^ 3 := Nat.pow_le_pow_right (by norm_num) (by omega)
    _ = 128 * 128 * 128 := by norm_num
  unfold _decode_variable_length
  have hshift := decodeVarLoop_append pre (_encode_variable_length v ++ rest) 4 0 1 0
  rw [Nat.add_zero] at hshift
  rw [hshift, decodeVarLoop_encode v rest 4 1 0 hlen hmul]
  simp only [Except.map]
  have h1 : 0 + v * 1 = v := by omega
  have h2 : (_encode_variable_length v).length + pre.length
      = pre.length + (_encode_variable_length v).length := by omega
  rw [h1, h2]

/-- C5: Varint round-trip: for every integer v in the range 0 to 268435455
inclusive, decoding the bytes produced by the varint encoder starting at
offset 0 returns the pair (v, n) where n is the length in bytes of the
encoding. -/
theorem varint_round_trip (v : Nat) (h : v ≤ 268435455) :
    _decode_variable_length (_encode_variable_length v) 0
      = .ok (v, (_encode_variable_length v).length) := by
  have := decode_variable_length_spec v [] [] h
  simpa using this

theorem varint_round_trip_witness :
    77777 ≤ 268435455 ∧
      _decode_variable_length (_encode_variable_length 77777) 0
        = .ok (77777, (_encode_variable_length 77777).length) :=
  ⟨by decide, varint_round_trip 77777 (by decide)⟩

/-- Whether a decode result is a raised error. -/
def isErr {α : Type} : Except String α → Bool
  | .error _ => true
  | .ok _ => false

/-- If every byte from the offset to the end of the buffer has the
continuation bit set, the decode loop can only fail (by buffer exhaustion or
by the multiplier guard). -/
theorem decodeVarLoop_all_continuation :
    ∀ (fuel : Nat) (data : List Nat) (offset multiplier value : Nat),
      (∀ i, offset ≤ i → i < data.length → data.getD i 0 / 128 % 2 = 1) →
      isErr (decodeVarLoop fuel data offset multiplier value) = true := by
  intro fuel
  induction fuel with
  | zero => intro data offset multiplier value _; rfl
  | succ fuel ih =>
    intro data offset multiplier value h
    simp only [decodeVarLoop]
    by_cases hoff : offset < data.length
    · rw [if_pos hoff, if_pos (h offset le_rfl hoff)]
      by_cases hmul : multiplier * 128 > 128 * 128 * 128
      · rw [if_pos hmul]; rfl
      · rw [if_neg hmul]
        exact ih data (offset + 1) (multiplier * 128) _
          (fun i hi1 hi2 => h i (by omega) hi2)
    · rw [if_neg hoff]; rfl

/-- C6: Varint decode rejects malformed input: the decoder fails with a
malformed-varint error whenever the continuation bit (0x80) is still set
after 4 bytes have been consumed, and also whenever the buffer is exhausted
before a byte with the continuation bit clear is read. -/
theorem varint_decode_rejects_malformed (data : List Nat) (offset : Nat) :
    ((∀ i, i < 4 → offset + i < data.length ∧
        data.getD (offset + i) 0 / 128 % 2 = 1) →
      isErr (_decode_variable_length data offset) = true) ∧
    ((∀ i, offset ≤ i → i < data.length → data.getD i 0 / 128 % 2 = 1) →
      isErr (_decode_variable_length data offset) = true) := by
  constructor
  · intro h
    have h0 := h 0 (by omega)
    have h1 := h 1 (by omega)
    have h2 := h 2 (by omega)
    have h3 := h 3 (by omega)
    simp only [Nat.add_zero] at h0
    unfold _decode_variable_length
    have hl0 : offset < data.length := h0.1
    have hl1 : offset + 1 < data.length := h1.1
    have hl2 : offset + 1 + 1 < data.length := by omega
    have hl3 : offset + 1 + 1 + 1 < data.length := by omega
    have g0 : data[offset] / 128 % 2 = 1 := by
      rw [← List.getD_eq_getElem data 0 hl0]; exact h0.2
    have g1 : data[offset + 1] / 128 % 2 = 1 := by
      rw [← List.getD_eq_getElem data 0 hl1]; exact h1.2
    have g2 : data[offset + 1 + 1] / 128 % 2 = 1 := by
      rw [← List.getD_eq_getElem data 0 hl2]
      have e : offset + 1 + 1 = offset + 2 := by omega
      rw [e]; exact h2.2
    have g3 : data[offset + 1 + 1 + 1] / 128 % 2 = 1 := by
      rw [← List.getD_eq_getElem data 0 hl3]
      have e : offset + 1 + 1 + 1 = offset + 3 := by omega
      rw [e]; exact h3.2
    simp [decodeVarLoop, h0.1, h0.2, h1.1, h1.2, h2.1, h2.2, h3.1, h3.2,
      g0, g1, g2, g3, isErr]
  · intro h
    exact decodeVarLoop_all_continuation 4 data offset 1 0 h

theorem varint_decode_rejects_malformed_witness :
    ((∀ i, i < 4 → 0 + i < ([255, 255, 255, 255, 255] : List Nat).length ∧
        ([255, 255, 255, 255, 255] : List Nat).getD (0 + i) 0 / 128 % 2 = 1) ∧
      isErr (_decode_variable_length [255, 255, 255, 255, 255] 0) = true) :=
  ⟨by decide,
    (varint_decode_rejects_malformed [255, 255, 255, 255, 255] 0).1 (by decide)⟩

/-! ### Fixed-width primitives.
MicroPython struct performs no range check and truncates the packed value to
the field width, modelled with explicit mod. -/

/-- struct.pack('!H', n): two bytes, big-endian, value truncated mod 2^16. -/
def pack_u16 (n : Nat) : List Nat := [n % 65536 / 256, n % 256]

/-- struct.unpack_from('!H', data, offset): big-endian u16 (the source
raises if fewer than two bytes remain; all uses here are in range). -/
def unpack_u16 (data : List Nat) (offset : Nat) : Nat :=
  data.getD offset 0 * 256 + data.getD (offset + 1) 0

/-- struct.pack('!I', n): four bytes, big-endian, value truncated mod 2^32. -/
def pack_u32 (n : Nat) : List Nat :=
  [n % 4294967296 / 16777216, n % 4294967296 / 65536 % 256,
   n % 4294967296 / 256 % 256, n % 256]

/-- struct.unpack_from('!I', data, offset): big-endian u32. -/
def unpack_u32 (data : List Nat) (offset : Nat) : Nat :=
  data.getD offset 0 * 16777216 + data.getD (offset + 1) 0 * 65536 +
    data.getD (offset + 2) 0 * 256 + data.getD (offset + 3) 0

/-- properties.py `_encode_utf8` (bytes branch; a str argument is first
UTF-8 encoded, so the input here is already the encoded byte string):
u16 big-endian length prefix followed by the bytes.  The source has no
length check whatsoever. -/
def _encode_utf8 (encoded : List Nat) : List Nat :=
  pack_u16 encoded.length ++ encoded

/-- properties.py `_decode_utf8`: u16 length prefix, then that many bytes
(returned as the byte string; UTF-8 decoding itself is the identity in this
byte-level model). -/
def _decode_utf8 (data : List Nat) (offset : Nat) : List Nat × Nat :=
  ((data.drop (offset + 2)).take (unpack_u16 data offset),
    offset + 2 + unpack_u16 data offset)

/-- properties.py `_encode_binary`: identical framing, no UTF-8 concern. -/
def _encode_binary (d : List Nat) : List Nat := pack_u16 d.length ++ d

/-- properties.py `_decode_binary`. -/
def _decode_binary (data : List Nat) (offset : Nat) : List Nat × Nat :=
  ((data.drop (offset + 2)).take (unpack_u16 data offset),
    offset + 2 + unpack_u16 data offset)

/-- properties.py `_encode_utf8_pair` (User Properties). -/
def _encode_utf8_pair (key value : List Nat) : List Nat :=
  _encode_utf8 key ++ _encode_utf8 value

/-- C9 (the claimed `StringTooLong` guard does not exist in the source):
`_encode_utf8` on a 65536-byte input does not fail; it produces output
whose u16 length prefix has silently wrapped around to 0x0000. -/
theorem encode_utf8_no_length_guard :
    _encode_utf8 (List.replicate 65536 97) = 0 :: 0 :: List.replicate 65536 97
    ∧ (_encode_utf8 (List.replicate 65536 97)).length = 65538 := by
  have hp : pack_u16 65536 = [0, 0] := by norm_num [pack_u16]
  constructor
  · unfold _encode_utf8
    rw [List.length_replicate, hp]
    rfl
  · unfold _encode_utf8
    rw [List.length_append, List.length_replicate, hp]
    rfl

/-! ### List indexing helpers for offset-based decoding -/

theorem getD_append_at (pre xs : List Nat) (k d : Nat) :
    (pre ++ xs).getD (pre.length + k) d = xs.getD k d := by
  induction pre with
  | nil => simp
  | cons a pre ih =>
    have e : (a :: pre).length + k = (pre.length + k) + 1 := by simp; omega
    rw [e, List.cons_append, List.getD_cons_succ, ih]

theorem drop_append_at (pre xs : List Nat) (k : Nat) :
    (pre ++ xs).drop (pre.length + k) = xs.drop k := by
  induction pre with
  | nil => simp
  | cons a pre ih =>
    have e : (a :: pre).length + k = (pre.length + k) + 1 := by simp; omega
    rw [e, List.cons_append, List.drop_succ_cons, ih]

theorem unpack_u16_append (pre : List Nat) (b0 b1 : Nat) (rest : List Nat) :
    unpack_u16 (pre ++ b0 :: b1 :: rest) pre.length = b0 * 256 + b1 := by
  unfold unpack_u16
  have h0 := getD_append_at pre (b0 :: b1 :: rest) 0 0
  have h1 := getD_append_at pre (b0 :: b1 :: rest) 1 0
  simp only [Nat.add_zero] at h0
  rw [h0, h1]
  simp

/-- Decoding a length-prefixed string past a prefix recovers the string and
advances the offset by exactly the encoding length. -/
theorem decode_utf8_spec (s pre rest : List Nat) (h : s.length < 65536) :
    _decode_utf8 (pre ++ (_encode_utf8 s ++ rest)) pre.length
      = (s, pre.length + (_encode_utf8 s).length) := by
  have hshape : _encode_utf8 s ++ rest
      = s.length % 65536 / 256 :: s.length % 256 :: (s ++ rest) := by
    simp [_encode_utf8, pack_u16]
  have hu : unpack_u16 (pre ++ (_encode_utf8 s ++ rest)) pre.length = s.length := by
    rw [hshape, unpack_u16_append]
    have hm : s.length % 65536 = s.length := Nat.mod_eq_of_lt h
    omega
  have hdrop : (pre ++ (_encode_utf8 s ++ rest)).drop (pre.length + 2)
      = s ++ rest := by
    rw [hshape, drop_append_at]
    simp
  have hlen : (_encode_utf8 s).length = 2 + s.length := by
    simp [_encode_utf8, pack_u16]
    omega
  unfold _decode_utf8
  rw [hu, hdrop, List.take_left, hlen, Nat.add_assoc]

/-! ### Topic filter matching (client.py `Client._topic_matches`) -/

/-- Python `s.split('/')` on the character list of `s`: splits at every '/',
keeping empty segments; in particular the empty string splits to `[[]]`,
matching Python's `"".split('/') == [""]`. -/
def splitSlash : List Char → List (List Char)
  | [] => [[]]
  | c :: cs =>
    if c = '/' then [] :: splitSlash cs
    else
      match splitSlash cs with
      | seg :: segs => (c :: seg) :: segs
      | [] => [[c]]

/-- The `while pi < len(pattern_parts) and ti < len(topic_parts)` loop of
`Client._topic_matches`: the two indices advance in lockstep, so the loop is
structural recursion on the two segment lists; after the loop the source
returns `pi == len(pattern_parts) and ti == len(topic_parts)`, i.e. both
lists must be exhausted together.  (The `[] => [[c]]` fallback of
`splitSlash` is unreachable: it never returns an empty list.) -/
def topicMatchLoop : List (List Char) → List (List Char) → Bool
  | p :: ps, t :: ts =>
    if p = ['#'] then true
    else if p = ['+'] then topicMatchLoop ps ts
    else if p = t then topicMatchLoop ps ts
    else false
  | ps, ts => ps.isEmpty && ts.isEmpty

/-- client.py `Client._topic_matches`: split both the subscription pattern
and the topic on '/' and compare segment by segment ('#' and '+' are the
one-character segments and literals compare exactly). -/
def Client._topic_matches (pattern topic : String) : Bool :=
  topicMatchLoop (splitSlash pattern.data) (splitSlash topic.data)

/-- C1 (code bug in the source): the spec's wildcard examples evaluated on
the code.  The filter "sensor/+/temp" matches "sensor/room1/temp" and not
"sensor/room1/room2/temp", "sensor/#" matches "sensor/a" and "sensor/a/b",
and "a/+" does not match "a" — all as the spec says — but "sensor/#" does
NOT match "sensor": the loop ends with the '#' segment unconsumed and the
final index check fails, so a trailing '#' does not match zero segments as
the spec requires. -/
theorem topic_matches_spec_examples :
    Client._topic_matches "sensor/+/temp" "sensor/room1/temp" = true
    ∧ Client._topic_matches "sensor/+/temp" "sensor/room1/room2/temp" = false
    ∧ Client._topic_matches "sensor/#" "sensor" = false
    ∧ Client._topic_matches "sensor/#" "sensor/a" = true
    ∧ Client._topic_matches "sensor/#" "sensor/a/b" = true
    ∧ Client._topic_matches "a/+" "a" = false := by
  decide

/-! ### MQTT 5.0 properties (properties.py with the type table of enums.py) -/

/-- enums.py PropertyType.USER_PROPERTY. -/
def PropertyType.USER_PROPERTY : Nat := 0x26

/-- The wire data types appearing in enums.PROPERTY_DATA_TYPE. -/
inductive PropDataType where
  | byte | uint16 | uint32 | utf8 | binary | varint | utf8_pair
deriving DecidableEq

/-- enums.py PROPERTY_DATA_TYPE: the static property-id → wire-type table
(the ids are the enums.PropertyType constants, written as literals). -/
def PROPERTY_DATA_TYPE : Nat → Option PropDataType
  | 0x01 => some .byte       -- PAYLOAD_FORMAT_INDICATOR
  | 0x02 => some .uint32     -- MESSAGE_EXPIRY_INTERVAL
  | 0x03 => some .utf8       -- CONTENT_TYPE
  | 0x08 => some .utf8       -- RESPONSE_TOPIC
  | 0x09 => some .binary     -- CORRELATION_DATA
  | 0x0B => some .varint     -- SUBSCRIPTION_IDENTIFIER
  | 0x11 => some .uint32     -- SESSION_EXPIRY_INTERVAL
  | 0x12 => some .utf8       -- ASSIGNED_CLIENT_IDENTIFIER
  | 0x13 => some .uint16     -- SERVER_KEEP_ALIVE
  | 0x15 => some .utf8       -- AUTHENTICATION_METHOD
  | 0x16 => some .binary     -- AUTHENTICATION_DATA
  | 0x17 => some .byte       -- REQUEST_PROBLEM_INFORMATION
  | 0x18 => some .uint32     -- WILL_DELAY_INTERVAL
  | 0x19 => some .byte       -- REQUEST_RESPONSE_INFORMATION
  | 0x1A => some .utf8       -- RESPONSE_INFORMATION
  | 0x1C => some .utf8       -- SERVER_REFERENCE
  | 0x1F => some .utf8       -- REASON_STRING
  | 0x21 => some .uint16     -- RECEIVE_MAXIMUM
  | 0x22 => some .uint16     -- TOPIC_ALIAS_MAXIMUM
  | 0x23 => some .uint16     -- TOPIC_ALIAS
  | 0x24 => some .byte       -- MAXIMUM_QOS
  | 0x25 => some .byte       -- RETAIN_AVAILABLE
  | 0x26 => some .utf8_pair  -- USER_PROPERTY
  | 0x27 => some .uint32     -- MAXIMUM_PACKET_SIZE
  | 0x28 => some .byte       -- WILDCARD_SUBSCRIPTION_AVAILABLE
  | 0x29 => some .byte       -- SUBSCRIPTION_IDENTIFIER_AVAILABLE
  | 0x2A => some .byte       -- SHARED_SUBSCRIPTION_AVAILABLE
  | _ => none

/-- A decoded property value (strings and binaries are byte strings; a
utf8_pair is a User Property key/value pair). -/
inductive PropValue where
  | byte (b : Nat)
  | uint16 (n : Nat)
  | uint32 (n : Nat)
  | utf8 (s : List Nat)
  | binary (b : List Nat)
  | varint (n : Nat)
  | pair (key value : List Nat)
deriving DecidableEq

/-- The wire type a `PropValue` is encoded with. -/
def PropValue.dtype : PropValue → PropDataType
  | .byte _ => .byte
  | .uint16 _ => .uint16
  | .uint32 _ => .uint32
  | .utf8 _ => .utf8
  | .binary _ => .binary
  | .varint _ => .varint
  | .pair _ _ => .utf8_pair

/-- A value stored in the Properties dict: the USER_PROPERTY key holds a
list that accumulates pairs; every other key holds a single value. -/
inductive StoredVal where
  | single (v : PropValue)
  | multi (l : List PropValue)
deriving DecidableEq

/-- The Properties dict (`Properties._properties`), as an insertion-ordered
association list with Python dict semantics: assignment to an existing key
updates it in place, assignment to a new key appends at the end. -/
abbrev PropBag := List (Nat × StoredVal)

/-- Python `dict.get(k)`. -/
def lookupBag : PropBag → Nat → Option StoredVal
  | [], _ => none
  | (k, v) :: rest, id => if k = id then some v else lookupBag rest id

/-- Python `d[k] = v`: in-place update of an existing key, append otherwise. -/
def storeBag : PropBag → Nat → StoredVal → PropBag
  | [], id, sv => [(id, sv)]
  | (k, v) :: rest, id, sv =>
    if k = id then (k, sv) :: rest else (k, v) :: storeBag rest id sv

/-- properties.py `Properties.set`: USER_PROPERTY appends to a list created
on demand; every other id overwrites.  (Under the USER_PROPERTY id the bag
only ever holds a `.multi` list; on the impossible `.single` shape the
source's `list.append` would raise, and the model keeps the bag unchanged.) -/
def propertiesSet (bag : PropBag) (property_id : Nat) (value : PropValue) : PropBag :=
  if property_id = PropertyType.USER_PROPERTY then
    match lookupBag bag property_id with
    | none => storeBag bag property_id (.multi [value])
    | some (.multi l) => storeBag bag property_id (.multi (l ++ [value]))
    | some (.single _) => bag
  else
    storeBag bag property_id (.single value)

/-- The per-entry store step of the `Properties.unpack` loop (source lines
133–139): `props.set` when the USER_PROPERTY key is absent or the id is not
USER_PROPERTY, a direct list append otherwise. -/
def unpackStore (props : PropBag) (prop_id : Nat) (value : PropValue) : PropBag :=
  if prop_id = PropertyType.USER_PROPERTY then
    match lookupBag props prop_id with
    | none => propertiesSet props prop_id value
    | some (.multi l) => storeBag props prop_id (.multi (l ++ [value]))
    | some (.single _) => props
  else
    propertiesSet props prop_id value

/-- properties.py `Properties._encode_property_value` (the data type is
carried by the `PropValue` constructor; `struct.pack('!B', v)` truncates
mod 256 as with the other fixed-width packs). -/
def _encode_property_value : PropValue → List Nat
  | .byte b => [b % 256]
  | .uint16 n => pack_u16 n
  | .uint32 n => pack_u32 n
  | .utf8 s => _encode_utf8 s
  | .binary b => _encode_binary b
  | .varint n => _encode_variable_length n
  | .pair k v => _encode_utf8_pair k v

/-- properties.py `Properties._decode_property_value`. -/
def _decode_property_value (data : List Nat) (offset : Nat) :
    PropDataType → Except String (PropValue × Nat)
  | .byte => .ok (.byte (data.getD offset 0), offset + 1)
  | .uint16 => .ok (.uint16 (unpack_u16 data offset), offset + 2)
  | .uint32 => .ok (.uint32 (unpack_u32 data offset), offset + 4)
  | .utf8 =>
    let r := _decode_utf8 data offset
    .ok (.utf8 r.1, r.2)
  | .binary =>
    let r := _decode_binary data offset
    .ok (.binary r.1, r.2)
  | .varint =>
    match _decode_variable_length data offset with
    | .error e => .error e
    | .ok (n, offset2) => .ok (.varint n, offset2)
  | .utf8_pair =>
    let r1 := _decode_utf8 data offset
    let r2 := _decode_utf8 data r1.2
    .ok (.pair r1.1 r2.1, r2.2)

/-- The `while offset < end_offset` loop of `Properties.unpack`.  Every
iteration consumes at least the one-byte property id, so the loop runs at
most `end_offset - offset` iterations; `Properties.unpack` passes the block
length as fuel, which makes the fuel-exhaustion branch unreachable. -/
def unpackLoop : Nat → List Nat → Nat → Nat → PropBag → Except String (PropBag × Nat)
  | 0, _, offset, _, props => .ok (props, offset)
  | fuel + 1, data, offset, end_offset, props =>
    if offset < end_offset then
      match PROPERTY_DATA_TYPE (data.getD offset 0) with
      | none => .ok (props, offset + 1)   -- unknown property: stop parsing the block
      | some data_type =>
        match _decode_property_value data (offset + 1) data_type with
        | .error e => .error e
        | .ok (value, offset2) =>
          unpackLoop fuel data offset2 end_offset
            (unpackStore props (data.getD offset 0) value)
    else
      .ok (props, offset)

/-- properties.py `Properties.unpack`: read the block-length varint, then
consume entries until the block is exhausted (or an unknown id stops it). -/
def Properties.unpack (data : List Nat) (offset : Nat) :
    Except String (PropBag × Nat) :=
  match _decode_variable_length data offset with
  | .error e => .error e
  | .ok (prop_length, offset2) =>
    if prop_length = 0 then .ok ([], offset2)
    else unpackLoop prop_length data offset2 (offset2 + prop_length) []

/-- Well-formedness of a property value for its wire type: fixed-width
fields in range, length-prefixed fields shorter than 2^16, varints within
the 4-byte range. -/
def valueWF : PropValue → Prop
  | .byte b => b < 256
  | .uint16 n => n < 65536
  | .uint32 n => n < 4294967296
  | .utf8 s => s.length < 65536
  | .binary b => b.length < 65536
  | .varint n => n ≤ 268435455
  | .pair k v => k.length < 65536 ∧ v.length < 65536

instance (v : PropValue) : Decidable (valueWF v) := by
  cases v <;> simp only [valueWF] <;> infer_instance

/-- A well-formed wire entry: a known property id (hence a byte) paired
with a well-formed value of the tabled type. -/
def entryWF (e : Nat × PropValue) : Prop :=
  PROPERTY_DATA_TYPE e.1 = some e.2.dtype ∧ valueWF e.2 ∧ e.1 < 256

instance (e : Nat × PropValue) : Decidable (entryWF e) :=
  inferInstanceAs (Decidable (_ ∧ _ ∧ _))

/-- The wire bytes of one properties-block entry: id byte then the value. -/
def encodeEntry (e : Nat × PropValue) : List Nat :=
  e.1 :: _encode_property_value e.2

/-- The wire bytes of a list of entries. -/
def encodeEntries : List (Nat × PropValue) → List Nat
  | [] => []
  | e :: es => encodeEntry e ++ encodeEntries es

/-- Folding the loop's store step over a list of entries. -/
def applyEntries (props : PropBag) (es : List (Nat × PropValue)) : PropBag :=
  es.foldl (fun b e => unpackStore b e.1 e.2) props

theorem unpack_u32_append (pre : List Nat) (b0 b1 b2 b3 : Nat) (rest : List Nat) :
    unpack_u32 (pre ++ b0 :: b1 :: b2 :: b3 :: rest) pre.length
      = b0 * 16777216 + b1 * 65536 + b2 * 256 + b3 := by
  unfold unpack_u32
  have h0 := getD_append_at pre (b0 :: b1 :: b2 :: b3 :: rest) 0 0
  have h1 := getD_append_at pre (b0 :: b1 :: b2 :: b3 :: rest) 1 0
  have h2 := getD_append_at pre (b0 :: b1 :: b2 :: b3 :: rest) 2 0
  have h3 := getD_append_at pre (b0 :: b1 :: b2 :: b3 :: rest) 3 0
  simp only [Nat.add_zero] at h0
  rw [h0, h1, h2, h3]
  simp

/-- `_decode_binary` is byte-for-byte the same procedure as `_decode_utf8`. -/
theorem decode_binary_eq_decode_utf8 : _decode_binary = _decode_utf8 := rfl

/-- Decoding one well-formed property value past a prefix recovers the value
and advances by exactly its encoding length. -/
theorem decode_property_value_spec (v : PropValue) (pre rest : List Nat)
    (h : valueWF v) :
    _decode_property_value (pre ++ (_encode_property_value v ++ rest))
        pre.length v.dtype
      = .ok (v, pre.length + (_encode_property_value v).length) := by
  cases v with
  | byte b =>
    simp only [valueWF] at h
    have hb : b % 256 = b := Nat.mod_eq_of_lt h
    simp only [PropValue.dtype, _encode_property_value, _decode_property_value, hb,
      List.cons_append, List.nil_append]
    have h0 := getD_append_at pre (b :: rest) 0 0
    simp only [Nat.add_zero] at h0
    rw [h0]
    simp
  | uint16 n =>
    simp only [valueWF] at h
    simp only [PropValue.dtype, _encode_property_value, _decode_property_value,
      pack_u16, List.cons_append, List.nil_append]
    rw [unpack_u16_append]
    have hx : n % 65536 / 256 * 256 + n % 256 = n := by omega
    rw [hx]
    simp
  | uint32 n =>
    simp only [valueWF] at h
    simp only [PropValue.dtype, _encode_property_value, _decode_property_value,
      pack_u32, List.cons_append, List.nil_append]
    rw [unpack_u32_append]
    have hx : n % 4294967296 / 16777216 * 16777216
        + n % 4294967296 / 65536 % 256 * 65536
        + n % 4294967296 / 256 % 256 * 256 + n % 256 = n := by omega
    rw [hx]
    simp
  | utf8 s =>
    simp only [valueWF] at h
    simp only [PropValue.dtype, _encode_property_value, _decode_property_value]
    rw [decode_utf8_spec s pre rest h]
  | binary b =>
    simp only [valueWF] at h
    simp only [PropValue.dtype, _encode_property_value, _decode_property_value,
      _encode_binary, decode_binary_eq_decode_utf8]
    have : _encode_binary b = _encode_utf8 b := rfl
    rw [show pack_u16 b.length ++ b = _encode_utf8 b from rfl,
      decode_utf8_spec b pre rest h]
  | varint n =>
    simp only [valueWF] at h
    simp only [PropValue.dtype, _encode_property_value, _decode_property_value]
    rw [decode_variable_length_spec n pre rest h]
  | pair k v =>
    simp only [valueWF] at h
    simp only [PropValue.dtype, _encode_property_value, _decode_property_value,
      _encode_utf8_pair]
    have hassoc : (_encode_utf8 k ++ _encode_utf8 v) ++ rest
        = _encode_utf8 k ++ (_encode_utf8 v ++ rest) := by
      rw [List.append_assoc]
    rw [hassoc, decode_utf8_spec k pre (_encode_utf8 v ++ rest) h.1]
    have hassoc2 : pre ++ (_encode_utf8 k ++ (_encode_utf8 v ++ rest))
        = (pre ++ _encode_utf8 k) ++ (_encode_utf8 v ++ rest) := by
      rw [List.append_assoc]
    have hlen2 : pre.length + (_encode_utf8 k).length
        = (pre ++ _encode_utf8 k).length := by
      rw [List.length_append]
    rw [hassoc2, hlen2, decode_utf8_spec v (pre ++ _encode_utf8 k) rest h.2]
    simp [List.length_append]
    omega

/-- The unpack loop over a block of well-formed entries followed by an
unknown id: it folds the store step over the entries and stops right after
reading the unknown id byte, never touching the bytes that follow it. -/
theorem unpackLoop_stops_at_unknown :
    ∀ (es : List (Nat × PropValue)) (pre junk : List Nat) (unknownId : Nat)
      (fuel : Nat) (props : PropBag),
      (∀ e ∈ es, entryWF e) →
      PROPERTY_DATA_TYPE unknownId = none →
      (encodeEntries es).length + 1 ≤ fuel →
      unpackLoop fuel (pre ++ (encodeEntries es ++ unknownId :: junk)) pre.length
          (pre.length + ((encodeEntries es).length + 1 + junk.length)) props
        = .ok (applyEntries props es, pre.length + (encodeEntries es).length + 1) := by
  intro es
  induction es with
  | nil =>
    intro pre junk unknownId fuel props _ hunk hfuel
    simp only [encodeEntries, List.length_nil, List.nil_append] at hfuel ⊢
    obtain ⟨fuel', rfl⟩ : ∃ f, fuel = f + 1 := by
      cases fuel with
      | zero => omega
      | succ n => exact ⟨n, rfl⟩
    simp only [unpackLoop]
    rw [if_pos (by omega)]
    have h0 := getD_append_at pre (unknownId :: junk) 0 0
    simp only [Nat.add_zero] at h0
    rw [h0]
    simp only [List.getD_cons_zero]
    rw [hunk]
    simp [applyEntries]
  | cons e es ih =>
    obtain ⟨id, v⟩ := e
    intro pre junk unknownId fuel props hwf hunk hfuel
    have hwf_e : entryWF (id, v) := hwf _ (List.mem_cons_self _ _)
    have hwf_es : ∀ x ∈ es, entryWF x := fun x hx => hwf x (List.mem_cons_of_mem _ hx)
    obtain ⟨htab, hwfv, _⟩ := hwf_e
    have hshape : encodeEntries ((id, v) :: es) ++ unknownId :: junk
        = id :: (_encode_property_value v ++ (encodeEntries es ++ unknownId :: junk)) := by
      simp [encodeEntries, encodeEntry, List.append_assoc]
    have hlen_cons : (encodeEntries ((id, v) :: es)).length
        = 1 + (_encode_property_value v).length + (encodeEntries es).length := by
      simp [encodeEntries, encodeEntry]
      omega
    obtain ⟨fuel', rfl⟩ : ∃ f, fuel = f + 1 := by
      cases fuel with
      | zero => omega
      | succ n => exact ⟨n, rfl⟩
    simp only [unpackLoop]
    rw [if_pos (by omega)]
    rw [hshape]
    have h0 := getD_append_at pre
      (id :: (_encode_property_value v ++ (encodeEntries es ++ unknownId :: junk))) 0 0
    simp only [Nat.add_zero] at h0
    -- decode the first value
    have hdec := decode_property_value_spec v (pre ++ [id])
      (encodeEntries es ++ unknownId :: junk) hwfv
    have hform : (pre ++ [id])
          ++ (_encode_property_value v ++ (encodeEntries es ++ unknownId :: junk))
        = pre ++ (id :: (_encode_property_value v ++ (encodeEntries es ++ unknownId :: junk))) := by
      simp [List.append_assoc]
    have hlenid : (pre ++ [id]).length = pre.length + 1 := by simp
    rw [hform, hlenid] at hdec
    simp only [h0, List.getD_cons_zero, htab, hdec]
    -- the recursive call through the induction hypothesis
    have happ := ih (pre ++ (id :: _encode_property_value v)) junk unknownId fuel'
      (unpackStore props id v) hwf_es hunk (by omega)
    have hdata : (pre ++ (id :: _encode_property_value v))
          ++ (encodeEntries es ++ unknownId :: junk)
        = pre ++ (id :: (_encode_property_value v ++ (encodeEntries es ++ unknownId :: junk))) := by
      simp [List.append_assoc]
    have hplen : (pre ++ (id :: _encode_property_value v)).length
        = pre.length + 1 + (_encode_property_value v).length := by
      simp
      omega
    rw [hdata, hplen] at happ
    have hend : pre.length + ((encodeEntries ((id, v) :: es)).length + 1 + junk.length)
        = pre.length + 1 + (_encode_property_value v).length
          + ((encodeEntries es).length + 1 + junk.length) := by omega
    rw [hend, happ]
    have hfold : applyEntries props ((id, v) :: es)
        = applyEntries (unpackStore props id v) es := rfl
    rw [hfold]
    have hoff : pre.length + 1 + (_encode_property_value v).length
          + (encodeEntries es).length + 1
        = pre.length + (encodeEntries ((id, v) :: es)).length + 1 := by omega
    rw [hoff]

/-- C8: Unknown-property short-circuit: for every properties block whose
entries include an identifier absent from the static type table,
`Properties.unpack` stops consuming the block at that identifier and returns
a bag containing exactly the properties that preceded it — every property
listed after the unknown one is silently dropped (the `junk` bytes, which
may themselves encode further valid properties, are never read). -/
theorem properties_unpack_unknown_short_circuit
    (es : List (Nat × PropValue)) (unknownId : Nat) (junk : List Nat)
    (hwf : ∀ e ∈ es, entryWF e)
    (hunknown : PROPERTY_DATA_TYPE unknownId = none)
    (hbyte : unknownId < 256)
    (hlen : (encodeEntries es).length + 1 + junk.length ≤ 268435455) :
    Properties.unpack
        (_encode_variable_length (encodeEntries es ++ unknownId :: junk).length
          ++ (encodeEntries es ++ unknownId :: junk)) 0
      = .ok (applyEntries [] es,
          (_encode_variable_length
              (encodeEntries es ++ unknownId :: junk).length).length
            + (encodeEntries es).length + 1) := by
  have hL : (encodeEntries es ++ unknownId :: junk).length
      = (encodeEntries es).length + 1 + junk.length := by
    simp
    omega
  unfold Properties.unpack
  have hdec := decode_variable_length_spec
    ((encodeEntries es ++ unknownId :: junk).length)
    [] (encodeEntries es ++ unknownId :: junk) (by omega)
  simp only [List.nil_append, List.length_nil, Nat.zero_add] at hdec
  simp only [hdec]
  rw [if_neg (by omega)]
  have hloop := unpackLoop_stops_at_unknown es
    (_encode_variable_length (encodeEntries es ++ unknownId :: junk).length)
    junk unknownId
    ((encodeEntries es ++ unknownId :: junk).length) [] hwf hunknown (by omega)
  have hend : (_encode_variable_length
          (encodeEntries es ++ unknownId :: junk).length).length
        + (encodeEntries es ++ unknownId :: junk).length
      = (_encode_variable_length
          (encodeEntries es ++ unknownId :: junk).length).length
        + ((encodeEntries es).length + 1 + junk.length) := by omega
  rw [hend]
  exact hloop

theorem properties_unpack_unknown_short_circuit_witness :
    ((∀ e ∈ [((1 : Nat), PropValue.byte 1), (33, PropValue.uint16 20)], entryWF e)
      ∧ PROPERTY_DATA_TYPE 171 = none ∧ 171 < 256
      ∧ (encodeEntries [((1 : Nat), PropValue.byte 1),
            (33, PropValue.uint16 20)]).length + 1
          + ([1, 5] : List Nat).length ≤ 268435455)
    ∧ Properties.unpack
        (_encode_variable_length
            (encodeEntries [((1 : Nat), PropValue.byte 1), (33, PropValue.uint16 20)]
              ++ 171 :: [1, 5]).length
          ++ (encodeEntries [((1 : Nat), PropValue.byte 1), (33, PropValue.uint16 20)]
              ++ 171 :: [1, 5])) 0
      = .ok (applyEntries []
            [((1 : Nat), PropValue.byte 1), (33, PropValue.uint16 20)],
          (_encode_variable_length
              (encodeEntries [((1 : Nat), PropValue.byte 1), (33, PropValue.uint16 20)]
                ++ 171 :: [1, 5]).length).length
            + (encodeEntries [((1 : Nat), PropValue.byte 1),
                (33, PropValue.uint16 20)]).length + 1) :=
  ⟨⟨by decide, by decide, by decide, by decide⟩,
    properties_unpack_unknown_short_circuit _ _ _
      (by decide) (by decide) (by decide) (by decide)⟩

/-! ### Packets (packets.py) -/

/-- enums.py MQTTProtocolVersion. -/
def MQTTProtocolVersion.MQTTv311 : Nat := 4

/-- enums.py MQTTProtocolVersion. -/
def MQTTProtocolVersion.MQTTv5 : Nat := 5

/-- enums.py PacketType.PUBLISH. -/
def PacketType.PUBLISH : Nat := 0x30

/-- enums.py ReasonCode.SUCCESS. -/
def ReasonCode.SUCCESS : Nat := 0x00

/-- The `for key, val in value` emission of `Properties.pack` for the
USER_PROPERTY list: one `[id][utf8 pair]` per stored pair.  (A non-pair
element would fail Python tuple unpacking; the model skips it.) -/
def packUserPairs (prop_id : Nat) : List PropValue → List Nat
  | [] => []
  | .pair k v :: rest => (prop_id :: _encode_utf8_pair k v) ++ packUserPairs prop_id rest
  | _ :: rest => packUserPairs prop_id rest

/-- The `for prop_id, value in self._properties.items()` loop of
`Properties.pack`: ids missing from the type table are skipped; the
USER_PROPERTY id emits one entry per pair; every other id emits
`[id][encoded value]`.  (A `.multi` under a non-user id or a `.single`
under the user id cannot be built by set/unpack; they emit nothing.) -/
def packBagEntries : PropBag → List Nat
  | [] => []
  | (prop_id, sv) :: rest =>
    (match PROPERTY_DATA_TYPE prop_id with
     | none => []
     | some _ =>
       if prop_id = PropertyType.USER_PROPERTY then
         match sv with
         | .multi l => packUserPairs prop_id l
         | .single _ => []
       else
         match sv with
         | .single v => prop_id :: _encode_property_value v
         | .multi _ => []) ++ packBagEntries rest

/-- properties.py `Properties.pack`: an empty bag packs to the single
zero-length varint byte; otherwise the entry bytes prefixed with their
total length as a varint. -/
def Properties.pack (bag : PropBag) : List Nat :=
  if bag = [] then _encode_variable_length 0
  else _encode_variable_length (packBagEntries bag).length ++ packBagEntries bag

/-- packets.py `MQTTPacket._pack_fixed_header`: the type/flags byte
(`(packet_type & 0xF0) | (flags & 0x0F)`, disjoint bit ranges, hence a sum)
followed by the remaining length varint. -/
def _pack_fixed_header (packet_type flags remaining_length : Nat) : List Nat :=
  (packet_type % 256 / 16 * 16 + flags % 16) :: _encode_variable_length remaining_length

/-- packets.py `PublishPacket` (field `flags` of the base class is derived
from dup/qos/retain, see `PublishPacket.flagsOf`). -/
structure PublishPacket where
  topic : List Nat        -- UTF-8 bytes of the topic string
  payload : List Nat
  qos : Nat
  retain : Bool
  dup : Bool
  mid : Nat
  protocol_version : Nat
  properties : PropBag
deriving DecidableEq

/-- `PublishPacket.__init__`: flags = `DUP<<3 | (qos & 3)<<1 | RETAIN`
(disjoint bit ranges, hence a sum). -/
def PublishPacket.flagsOf (p : PublishPacket) : Nat :=
  (if p.dup then 8 else 0) + p.qos % 4 * 2 + (if p.retain then 1 else 0)

/-- packets.py `PublishPacket.pack`: topic, 2-byte mid only if qos > 0,
properties (MQTT 5 only), raw payload; fixed header prepended. -/
def PublishPacket.pack (p : PublishPacket) : List Nat :=
  let variable_header :=
    _encode_utf8 p.topic
      ++ (if p.qos > 0 then pack_u16 p.mid else [])
      ++ (if p.protocol_version = MQTTProtocolVersion.MQTTv5
          then Properties.pack p.properties else [])
  let packet := variable_header ++ p.payload
  _pack_fixed_header PacketType.PUBLISH p.flagsOf packet.length ++ packet

/-- packets.py `PublishPacket.unpack` (`data` is the packet body after the
fixed header; dup/qos/retain are read out of the fixed-header flags). -/
def PublishPacket.unpack (flags : Nat) (data : List Nat)
    (protocol_version : Nat) : Except String PublishPacket :=
  let r := _decode_utf8 data 0
  let mo : Nat × Nat :=
    if flags / 2 % 4 > 0 then (unpack_u16 data r.2, r.2 + 2) else (0, r.2)
  match (if protocol_version = MQTTProtocolVersion.MQTTv5
         then Properties.unpack data mo.2
         else .ok ([], mo.2)) with
  | .error e => .error e
  | .ok (properties, offset) =>
    .ok { topic := r.1, payload := data.drop offset,
          qos := flags / 2 % 4,
          retain := flags % 2 = 1,
          dup := flags / 8 % 2 = 1,
          mid := mo.1,
          protocol_version := protocol_version,
          properties := properties }

instance {e a : Type} [DecidableEq e] [DecidableEq a] :
    DecidableEq (Except e a) := fun x y =>
  match x, y with
  | .ok u, .ok w => if h : u = w then isTrue (by rw [h]) else isFalse (by simp [h])
  | .error u, .error w =>
    if h : u = w then isTrue (by rw [h]) else isFalse (by simp [h])
  | .ok _, .error _ => isFalse (by simp)
  | .error _, .ok _ => isFalse (by simp)

/-- The spec's example packet: topic "a/b" (bytes [97,47,98]), payload
b"x" ([120]), qos 1, mid 7, MQTT 5, no properties. -/
def examplePublishQos1 : PublishPacket :=
  { topic := [97, 47, 98], payload := [120], qos := 1, retain := false,
    dup := false, mid := 7, protocol_version := 5, properties := [] }

/-- The same packet with qos 0. -/
def examplePublishQos0 : PublishPacket :=
  { topic := [97, 47, 98], payload := [120], qos := 0, retain := false,
    dup := false, mid := 7, protocol_version := 5, properties := [] }

set_option maxRecDepth 100000 in
/-- C4: PUBLISH wire format: the packed qos-1 packet, with its body decoded
back through `PublishPacket.unpack` using the flags nibble of its fixed
header (the fixed header is 2 bytes here: type/flags byte and the 1-byte
remaining-length varint), reproduces topic "a/b" (bytes [97,47,98]),
payload b"x" ([120]), qos 1, mid 7, dup false, retain false; and the packed
qos-0 packet for the same topic/payload/properties is exactly 2 bytes
shorter (no mid field). -/
theorem publish_pack_unpack_round_trip :
    (PublishPacket.unpack (examplePublishQos1.pack.getD 0 0 % 16)
        (examplePublishQos1.pack.drop 2) 5
      = .ok examplePublishQos1)
    ∧ examplePublishQos1.pack.length = examplePublishQos0.pack.length + 2 := by
  decide

/-- packets.py `PubackPacket` (QoS 1 acknowledgement). -/
structure PubackPacket where
  mid : Nat
  reason_code : Nat
  protocol_version : Nat
  properties : PropBag
deriving DecidableEq

/-- packets.py `PubackPacket.unpack`: 2-byte mid; then, only for MQTT 5 and
only when bytes remain (`offset < len(data)` with offset 2), a reason-code
byte; then, only when further bytes remain, a properties block. -/
def PubackPacket.unpack (flags : Nat) (data : List Nat)
    (protocol_version : Nat) : Except String PubackPacket :=
  let mid := unpack_u16 data 0
  if protocol_version = MQTTProtocolVersion.MQTTv5 ∧ 2 < data.length then
    if 3 < data.length then
      match Properties.unpack data 3 with
      | .error e => .error e
      | .ok (properties, _) =>
        .ok { mid := mid, reason_code := data.getD 2 0,
              protocol_version := protocol_version, properties := properties }
    else
      .ok (⟨mid, data.getD 2 0, protocol_version, []⟩ : PubackPacket)
  else
    .ok (⟨mid, ReasonCode.SUCCESS, protocol_version, []⟩ : PubackPacket)

/-- C7: Acknowledgement decoder tolerance: a 2-byte body (just the mid)
decodes successfully with reason code SUCCESS under both protocol versions;
under MQTT 5 a present reason-code byte is used (with no property parsing
when nothing follows it); and a properties block is parsed only when bytes
follow the reason code (here an empty block byte 0x00). -/
theorem puback_unpack_tolerates_short_body (flags pv a b rc : Nat)
    (ha : a < 256) (hb : b < 256) (hrc : rc < 256) (hpv : pv = 4 ∨ pv = 5) :
    (PubackPacket.unpack flags [a, b] pv
      = .ok (⟨a * 256 + b, 0, pv, []⟩ : PubackPacket))
    ∧ (PubackPacket.unpack flags [a, b, rc] 5
      = .ok (⟨a * 256 + b, rc, 5, []⟩ : PubackPacket))
    ∧ (PubackPacket.unpack flags [a, b, rc, 0] 5
      = .ok (⟨a * 256 + b, rc, 5, []⟩ : PubackPacket)) := by
  refine ⟨?_, ?_, ?_⟩
  · rcases hpv with h | h <;> subst h <;>
      simp [PubackPacket.unpack, unpack_u16, MQTTProtocolVersion.MQTTv5,
        ReasonCode.SUCCESS, List.getD]
  · simp [PubackPacket.unpack, unpack_u16, MQTTProtocolVersion.MQTTv5,
      List.getD]
  · simp [PubackPacket.unpack, unpack_u16, MQTTProtocolVersion.MQTTv5,
      Properties.unpack, _decode_variable_length, decodeVarLoop, List.getD]

theorem puback_unpack_tolerates_short_body_witness :
    ((18 : Nat) < 256 ∧ (52 : Nat) < 256 ∧ (16 : Nat) < 256
      ∧ ((4 : Nat) = 4 ∨ (4 : Nat) = 5))
    ∧ ((PubackPacket.unpack 0 [18, 52] 4
      = .ok (⟨18 * 256 + 52, 0, 4, []⟩ : PubackPacket))
    ∧ (PubackPacket.unpack 0 [18, 52, 16] 5
      = .ok (⟨18 * 256 + 52, 16, 5, []⟩ : PubackPacket))
    ∧ (PubackPacket.unpack 0 [18, 52, 16, 0] 5
      = .ok (⟨18 * 256 + 52, 16, 5, []⟩ : PubackPacket))) :=
  ⟨⟨by decide, by decide, by decide, by decide⟩,
    puback_unpack_tolerates_short_body 0 4 18 52 16
      (by decide) (by decide) (by decide) (by decide)⟩

/-! ### Client state machine (client.py)

State-mutating handlers are modelled as pure transitions returning the new
state, the packets written to the socket, and the callback invocations
fired.  Callbacks themselves are opaque: the model records that
`on_publish` / `on_message` / a registered per-topic callback would have
been invoked (guarded, as in the source, on the callback being set).  The
`sendOk` flag renders the source's `try: send_packet_to_socket(...)`
blocks: `true` is a successful send, `false` the swallowed exception. -/

/-- message.py `MQTTMessageInfo` (mid, result code, published flag);
RC_QUEUED = 0, RC_PUBLISHED = 1, RC_CONFIRMED = 2. -/
structure MQTTMessageInfo where
  mid : Nat
  rc : Nat
  published : Bool
deriving DecidableEq

/-- `MQTTMessageInfo.__init__`. -/
def MQTTMessageInfo.init (mid : Nat) : MQTTMessageInfo :=
  { mid := mid, rc := 0, published := false }

/-- message.py `MQTTMessage` as the client handlers populate it (topic is
the Python str; payload is bytes). -/
structure MQTTMessage where
  mid : Nat
  topic : String
  payload : List Nat
  qos : Nat
  retain : Bool
  properties : PropBag
deriving DecidableEq

/-- An inbound PUBLISH as handed to `Client._handle_publish` (the fields of
the decoded `PublishPacket` the handler reads). -/
structure InboundPublish where
  mid : Nat
  topic : String
  payload : List Nat
  qos : Nat
  retain : Bool
  properties : PropBag
deriving DecidableEq

/-- A packet written to the socket by the client paths modelled here. -/
inductive SentPacket where
  | publishPkt (topic : String) (payload : List Nat) (qos : Nat)
      (retain : Bool) (mid : Nat) (properties : PropBag)
  | puback (mid : Nat)
  | pubrec (mid : Nat)
  | pubrel (mid : Nat)
  | pubcomp (mid : Nat)
deriving DecidableEq

/-- A recorded callback invocation. -/
inductive ClientEvent where
  | on_publish (mid : Nat)
  | on_message (message : MQTTMessage)
  | callback (cb : Nat) (message : MQTTMessage)
deriving DecidableEq

/-- The client state touched by the claims: connection flag, mid counter,
the outbound inflight table, the two QoS 2 tracking structures, the inbound
QoS 2 table, the registered per-topic callbacks (insertion-ordered, as a
Python dict), and whether on_message / on_publish are set.  The dict-valued
fields are modelled as maps `Nat → Option _` (no iteration over them occurs
in the modelled paths); `_qos2_pubrel_sent` is a set. -/
structure ClientState where
  connected : Bool
  last_mid : Nat
  inflight_messages : Nat → Option MQTTMessageInfo
  qos2_pubrec_received : Nat → Option MQTTMessageInfo
  qos2_pubrel_sent : Nat → Bool
  in_packet : Nat → Option MQTTMessage
  message_callbacks : List (String × Nat)
  on_message_set : Bool
  on_publish_set : Bool

/-- Python `d[k] = v` on a `Nat`-keyed dict. -/
def mapSet {α : Type} (m : Nat → Option α) (k : Nat) (v : α) : Nat → Option α :=
  fun x => if x = k then some v else m x

/-- Python `d.pop(k, None)` (the removal part). -/
def mapPop {α : Type} (m : Nat → Option α) (k : Nat) : Nat → Option α :=
  fun x => if x = k then none else m x

/-- Python `s.add(k)`. -/
def setAdd (s : Nat → Bool) (k : Nat) : Nat → Bool :=
  fun x => if x = k then true else s x

/-- Python `s.discard(k)`. -/
def setDiscard (s : Nat → Bool) (k : Nat) : Nat → Bool :=
  fun x => if x = k then false else s x

/-- Result of one packet handler: new state, packets sent, callbacks fired. -/
structure HandlerResult where
  state : ClientState
  sent : List SentPacket
  events : List ClientEvent

/-- The `for pattern, cb in self._message_callbacks.items()` lookup used by
`_handle_publish` and `_handle_pubrel`: first registered pattern matching
the topic wins. -/
def Client.findCallback : List (String × Nat) → String → Option Nat
  | [], _ => none
  | (pattern, cb) :: rest, topic =>
    if Client._topic_matches pattern topic then some cb
    else Client.findCallback rest topic

/-- The delivery tail shared by `_handle_publish` and `_handle_pubrel`:
a matching registered callback, else `on_message` if set, else nothing. -/
def Client.deliver (st : ClientState) (message : MQTTMessage) : List ClientEvent :=
  match Client.findCallback st.message_callbacks message.topic with
  | some cb => [.callback cb message]
  | none => if st.on_message_set then [.on_message message] else []

/-- client.py `Client._handle_publish`: build the `MQTTMessage`; qos 1 sends
a best-effort PUBACK then delivers; qos 2 sends PUBREC and, on send success,
stores the message in `_in_packet` and returns without delivering; qos 0
delivers immediately. -/
def Client._handle_publish (st : ClientState) (packet : InboundPublish)
    (sendOk : Bool) : HandlerResult :=
  let message : MQTTMessage :=
    { mid := packet.mid, topic := packet.topic, payload := packet.payload,
      qos := packet.qos, retain := packet.retain, properties := packet.properties }
  if packet.qos = 1 then
    { state := st, sent := if sendOk then [.puback packet.mid] else [],
      events := Client.deliver st message }
  else if packet.qos = 2 then
    if sendOk then
      { state := { st with in_packet := mapSet st.in_packet packet.mid message },
        sent := [.pubrec packet.mid], events := [] }
    else
      { state := st, sent := [], events := [] }
  else
    { state := st, sent := [], events := Client.deliver st message }

/-- client.py `Client._handle_pubrec` (QoS 2, outbound side, step 2): if the
mid is inflight, record PUBREC-received, then send PUBREL and, on send
success, record PUBREL-sent; the inflight entry stays. -/
def Client._handle_pubrec (st : ClientState) (packet_id : Nat)
    (sendOk : Bool) : HandlerResult :=
  match st.inflight_messages packet_id with
  | some info =>
    let st1 := { st with
      qos2_pubrec_received := mapSet st.qos2_pubrec_received packet_id info }
    if sendOk then
      { state := { st1 with
          qos2_pubrel_sent := setAdd st1.qos2_pubrel_sent packet_id },
        sent := [.pubrel packet_id], events := [] }
    else
      { state := st1, sent := [], events := [] }
  | none => { state := st, sent := [], events := [] }

/-- client.py `Client._handle_pubrel` (QoS 2, inbound side, step 3): pop the
stored message and deliver it if present; send PUBCOMP regardless. -/
def Client._handle_pubrel (st : ClientState) (packet_id : Nat)
    (sendOk : Bool) : HandlerResult :=
  let r : ClientState × List ClientEvent :=
    match st.in_packet packet_id with
    | some message =>
      let st1 := { st with in_packet := mapPop st.in_packet packet_id }
      (st1, Client.deliver st1 message)
    | none => (st, [])
  { state := r.1, sent := if sendOk then [.pubcomp packet_id] else [],
    events := r.2 }

/-- client.py `Client._handle_pubcomp` (QoS 2, outbound side, step 4): if
the mid is inflight, confirm and remove it, clear both QoS 2 tracking
structures, and fire on_publish. -/
def Client._handle_pubcomp (st : ClientState) (packet_id : Nat) : HandlerResult :=
  match st.inflight_messages packet_id with
  | some _ =>
    { state := { st with
        inflight_messages := mapPop st.inflight_messages packet_id,
        qos2_pubrec_received := mapPop st.qos2_pubrec_received packet_id,
        qos2_pubrel_sent := setDiscard st.qos2_pubrel_sent packet_id },
      sent := [],
      events := if st.on_publish_set then [.on_publish packet_id] else [] }
  | none => { state := st, sent := [], events := [] }

/-- client.py `Client._get_next_mid`: cycles 1..65535. -/
def Client._get_next_mid (st : ClientState) : ClientState × Nat :=
  ({ st with last_mid := st.last_mid % 65535 + 1 }, st.last_mid % 65535 + 1)

/-- client.py `Client.publish`: when not connected, log and return
`MQTTMessageInfo(0)` before any other step; reject qos > 2 (qos < 0 cannot
occur for `Nat`); allocate a mid only for qos > 0; send the PUBLISH (a send
failure flips `_connected` and returns); qos 0 marks published and fires
on_publish, qos 1/2 register the handle in the inflight table. -/
def Client.publish (st : ClientState) (topic : String) (payload : List Nat)
    (qos : Nat) (retain : Bool) (properties : PropBag) (sendOk : Bool) :
    Except String (ClientState × List SentPacket × List ClientEvent × MQTTMessageInfo) :=
  if st.connected = false then
    .ok (st, [], [], MQTTMessageInfo.init 0)
  else if qos > 2 then
    .error "QoS must be 0, 1, or 2"
  else
    let r := if qos > 0 then Client._get_next_mid st else (st, 0)
    if sendOk then
      if qos = 0 then
        .ok (r.1, [.publishPkt topic payload qos retain r.2 properties],
          if r.1.on_publish_set then [.on_publish r.2] else [],
          { MQTTMessageInfo.init r.2 with published := true, rc := 1 })
      else
        .ok ({ r.1 with
            inflight_messages :=
              mapSet r.1.inflight_messages r.2 (MQTTMessageInfo.init r.2) },
          [.publishPkt topic payload qos retain r.2 properties], [],
          MQTTMessageInfo.init r.2)
    else
      .ok ({ r.1 with connected := false }, [], [], MQTTMessageInfo.init r.2)

/-- C2: Outbound QoS 2 handshake: with mid M inflight, handling PUBREC(M)
sends PUBREL(M), records PUBREC-received and PUBREL-sent for M, leaves M
inflight and fires nothing; then handling PUBCOMP(M) removes M from the
inflight table and both QoS 2 tracking structures and fires on_publish
exactly once with M (on_publish being set). -/
theorem qos2_outbound_handshake (st : ClientState) (M : Nat)
    (info : MQTTMessageInfo)
    (hin : st.inflight_messages M = some info)
    (hpub : st.on_publish_set = true) :
    let r1 := Client._handle_pubrec st M true
    let r2 := Client._handle_pubcomp r1.state M
    r1.sent = [.pubrel M]
    ∧ r1.events = []
    ∧ r1.state.qos2_pubrec_received M = some info
    ∧ r1.state.qos2_pubrel_sent M = true
    ∧ r1.state.inflight_messages M = some info
    ∧ r2.state.inflight_messages M = none
    ∧ r2.state.qos2_pubrec_received M = none
    ∧ r2.state.qos2_pubrel_sent M = false
    ∧ r2.events = [.on_publish M]
    ∧ r2.sent = [] := by
  simp [Client._handle_pubrec, Client._handle_pubcomp, hin, hpub,
    mapSet, mapPop, setAdd, setDiscard]

/-- A connected client with mid 5 inflight, no stored inbound messages, no
registered per-topic callbacks, and on_message/on_publish set. -/
def exampleClient : ClientState :=
  { connected := true, last_mid := 5,
    inflight_messages := fun k => if k = 5 then some (MQTTMessageInfo.init 5) else none,
    qos2_pubrec_received := fun _ => none,
    qos2_pubrel_sent := fun _ => false,
    in_packet := fun _ => none,
    message_callbacks := [], on_message_set := true, on_publish_set := true }

theorem qos2_outbound_handshake_witness :
    (exampleClient.inflight_messages 5 = some (MQTTMessageInfo.init 5)
      ∧ exampleClient.on_publish_set = true)
    ∧ (let r1 := Client._handle_pubrec exampleClient 5 true
       let r2 := Client._handle_pubcomp r1.state 5
       r1.sent = [.pubrel 5]
       ∧ r1.events = []
       ∧ r1.state.qos2_pubrec_received 5 = some (MQTTMessageInfo.init 5)
       ∧ r1.state.qos2_pubrel_sent 5 = true
       ∧ r1.state.inflight_messages 5 = some (MQTTMessageInfo.init 5)
       ∧ r2.state.inflight_messages 5 = none
       ∧ r2.state.qos2_pubrec_received 5 = none
       ∧ r2.state.qos2_pubrel_sent 5 = false
       ∧ r2.events = [.on_publish 5]
       ∧ r2.sent = []) :=
  ⟨⟨rfl, rfl⟩,
    qos2_outbound_handshake exampleClient 5 (MQTTMessageInfo.init 5) rfl rfl⟩

/-- C3: Inbound QoS 2 delivery: handling an inbound PUBLISH with qos 2 and
mid m stores the message under m and sends PUBREC(m) with no callback;
a later PUBREL(m) pops m, delivers the stored topic and payload to the
matching registered callback (or to on_message) exactly once, and sends
PUBCOMP(m); handling PUBREL again, with m now absent from the inbound
table, still sends PUBCOMP(m) and delivers nothing. -/
theorem qos2_inbound_delivery (st : ClientState) (m : Nat) (topic : String)
    (payload : List Nat) (retain : Bool) (props : PropBag)
    (hmsg : st.on_message_set = true) :
    let message : MQTTMessage := ⟨m, topic, payload, 2, retain, props⟩
    let r1 := Client._handle_publish st ⟨m, topic, payload, 2, retain, props⟩ true
    let r2 := Client._handle_pubrel r1.state m true
    let r3 := Client._handle_pubrel r2.state m true
    r1.sent = [.pubrec m]
    ∧ r1.events = []
    ∧ r1.state.in_packet m = some message
    ∧ r2.state.in_packet m = none
    ∧ r2.sent = [.pubcomp m]
    ∧ r2.events = [match Client.findCallback st.message_callbacks topic with
                   | some cb => ClientEvent.callback cb message
                   | none => ClientEvent.on_message message]
    ∧ r3.sent = [.pubcomp m]
    ∧ r3.events = [] := by
  cases hf : Client.findCallback st.message_callbacks topic with
  | some cb =>
    simp [Client._handle_publish, Client._handle_pubrel, Client.deliver,
      mapSet, mapPop, hmsg, hf]
  | none =>
    simp [Client._handle_publish, Client._handle_pubrel, Client.deliver,
      mapSet, mapPop, hmsg, hf]

theorem qos2_inbound_delivery_witness :
    exampleClient.on_message_set = true
    ∧ (let message : MQTTMessage := ⟨9, "t", [121], 2, false, []⟩
       let r1 := Client._handle_publish exampleClient ⟨9, "t", [121], 2, false, []⟩ true
       let r2 := Client._handle_pubrel r1.state 9 true
       let r3 := Client._handle_pubrel r2.state 9 true
       r1.sent = [.pubrec 9]
       ∧ r1.events = []
       ∧ r1.state.in_packet 9 = some message
       ∧ r2.state.in_packet 9 = none
       ∧ r2.sent = [.pubcomp 9]
       ∧ r2.events = [match Client.findCallback exampleClient.message_callbacks "t" with
                      | some cb => ClientEvent.callback cb message
                      | none => ClientEvent.on_message message]
       ∧ r3.sent = [.pubcomp 9]
       ∧ r3.events = []) :=
  ⟨rfl, qos2_inbound_delivery exampleClient 9 "t" [121] false [] rfl⟩

/-- C10: publishing while not connected: for any qos in 0..2, `publish`
returns an `MQTTMessageInfo` with mid 0, raises nothing, sends nothing,
fires nothing, and returns the client state unchanged (the not-connected
check precedes every other step of the source). -/
theorem publish_not_connected (st : ClientState) (topic : String)
    (payload : List Nat) (qos : Nat) (retain : Bool) (props : PropBag)
    (sendOk : Bool) (hconn : st.connected = false) (hqos : qos ≤ 2) :
    Client.publish st topic payload qos retain props sendOk
      = .ok (st, [], [], MQTTMessageInfo.init 0) := by
  simp [Client.publish, hconn]

/-- The same client, disconnected. -/
def exampleDisconnected : ClientState :=
  { exampleClient with connected := false }

theorem publish_not_connected_witness :
    (exampleDisconnected.connected = false ∧ (1 : Nat) ≤ 2)
    ∧ Client.publish exampleDisconnected "t" [1, 2] 1 false [] true
      = .ok (exampleDisconnected, [], [], MQTTMessageInfo.init 0) :=
  ⟨⟨rfl, by decide⟩,
    publish_not_connected exampleDisconnected "t" [1, 2] 1 false [] true
      rfl (by decide)⟩
